import Mathlib

/-!
# Verification of the remix-playground event-search pipeline

Shallow embedding of the query-and-filter pipeline of
`src/app/routes/home.tsx` and the view helpers of
`src/app/components/Map.tsx`, `EventList.tsx` and `EventSearch.tsx`,
together with proofs settling the frozen claims about the spec.

Modelling conventions:
* JavaScript strings are Lean `String`s; `strToLower` models
  `toLowerCase` (the denylist patterns and keywords compared here are
  ASCII or Japanese, where the two coincide).
* Nullable / possibly-absent fields are `Option` values; JS truthiness
  of a string field is "present and non-empty".
* The numeric `limit` field is `Option Nat` (`none` = JSON null /
  absent); JS `!event.limit` is true for `none` and for `some 0`
  because the number 0 is falsy.
* `lat`/`lon` are `Option Int`: `some` models a value on which JS
  `Number(...)` yields a finite number, `none` models absent or
  non-numeric data (`Number` yields `NaN`).
* A `Date` value (UTC timestamp at a day granularity) is a serial day
  number (`Nat`, days since 0000-03-01 proleptic Gregorian);
  `cursor.setDate(cursor.getDate() + 1)` is `+ 1` on the serial.
* `URLSearchParams` is an ordered `List (String × String)`.
-/

/-- Substring test on character lists: `charsContains hay needle` is
true iff `needle` occurs contiguously in `hay`.  Models the JS
`String.prototype.includes` used in the keyword filter. -/
def charsContains : List Char → List Char → Bool
  | [], needle => needle.isPrefixOf []
  | c :: t, needle => needle.isPrefixOf (c :: t) || charsContains t needle

/-- `strIncludes hay needle` models `hay.includes(needle)`. -/
def strIncludes (hay needle : String) : Bool :=
  charsContains hay.data needle.data

/-- Lower-casing character by character: the model of
`String.prototype.toLowerCase` (the characters compared in this
development are ASCII letters or Japanese, where per-character
lower-casing coincides with the JS function). -/
def strToLower (s : String) : String :=
  ⟨s.data.map Char.toLower⟩

/-- Remove every angle-bracket-delimited span, as the global regex
replace of `stripHtmlTags` (`home.tsx` line 63, pattern
`<` + greedy non-`>` run + optional `>`) does: outside a tag a `<`
enters tag state, inside a tag everything up to and including the
first `>` (or the end of input) is dropped. -/
def stripTagsAux : Bool → List Char → List Char
  | _, [] => []
  | true, c :: rest =>
    if c == '>' then stripTagsAux false rest else stripTagsAux true rest
  | false, c :: rest =>
    if c == '<' then stripTagsAux true rest else c :: stripTagsAux false rest

/-- `stripHtmlTags` from `home.tsx` lines 59-64: empty string for a
falsy input, otherwise the input with angle-bracket spans removed. -/
def stripHtmlTags (value : Option String) : String :=
  match value with
  | none => ""
  | some s => if s.isEmpty then "" else ⟨stripTagsAux false s.data⟩

/-- The Connpass event record (`EventListItem` in `EventList.tsx`),
restricted to the fields the pipeline reads.  `started_at` is the
parsed epoch timestamp of the start date-time string. -/
structure EventListItem where
  id : Nat
  title : Option String
  description : Option String
  place : Option String
  address : Option String
  limit : Option Nat
  open_status : String
  started_at : Int
  lat : Option Int
  lon : Option Int
deriving DecidableEq

/-- JS truthiness of a possibly-absent string field. -/
def strTruthy : Option String → Bool
  | none => false
  | some s => !s.isEmpty

/-- Case-insensitive denylist test: models `/p₁|p₂|…/i.test(s)` for
literal alternatives (patterns given lower-case). -/
def testAny (patterns : List String) (s : String) : Bool :=
  patterns.any (fun p => strIncludes (strToLower s) p)

/-- The venue denylist of the baseline filter (`home.tsx` line 163). -/
def venuePatterns : List String := ["オンライン", "online", "abema"]

/-- The title denylist of the baseline filter (`home.tsx` line 165). -/
def titlePatterns : List String := ["もくもく", "coderdojo", "永田町"]

/-- The capacity check `!event.limit || event.limit > 10`
(`home.tsx` line 164).  JS: `!limit` is true for null/undefined and
for the number 0. -/
def limitPasses : Option Nat → Bool
  | none => true
  | some n => n == 0 || 10 < n

/-- `passesBaseConditions` from `home.tsx` lines 160-165: the baseline
eligibility step of the result filter. -/
def passesBaseConditions (event : EventListItem) : Bool :=
  event.open_status == "preopen" &&
  strTruthy event.place &&
  !(testAny venuePatterns (event.place.getD "")) &&
  limitPasses event.limit &&
  !(testAny titlePatterns (event.title.getD ""))

/-- `buildSearchableText` from `home.tsx` lines 72-82: title, venue,
address and markup-stripped description, truthy fields only, joined
with single spaces, lower-cased. -/
def buildSearchableText (event : EventListItem) : String :=
  strToLower
    (String.intercalate " "
      (([event.title, event.place, event.address,
         some (stripHtmlTags event.description)].filterMap id).filter
        (fun s => !s.isEmpty)))

/-- The keyword-matching step (`home.tsx` lines 171-183), applied to
the already lower-cased include/exclude term lists. -/
def keywordStepPasses (normalizedIncludes normalizedExcludes : List String)
    (event : EventListItem) : Bool :=
  if normalizedIncludes.isEmpty && normalizedExcludes.isEmpty then true
  else
    (normalizedIncludes.isEmpty ||
      normalizedIncludes.all
        (fun keyword => strIncludes (buildSearchableText event) keyword)) &&
    normalizedExcludes.all
      (fun keyword => !strIncludes (buildSearchableText event) keyword)

/-- The complete per-record filter predicate of `filteredEvents`
(`home.tsx` lines 159-184), taking the raw include/exclude keyword
lists and normalizing them as lines 157-158 do. -/
def passFilter (includeKeywords excludeKeywords : List String)
    (event : EventListItem) : Bool :=
  passesBaseConditions event &&
  keywordStepPasses (includeKeywords.map strToLower)
    (excludeKeywords.map strToLower) event

/-- Split a character list at every character satisfying `p`,
producing the (possibly empty) groups between separators — the model
of `String.split`. -/
def splitChars (p : Char → Bool) : List Char → List (List Char)
  | [] => [[]]
  | c :: rest =>
    if p c then [] :: splitChars p rest
    else
      match splitChars p rest with
      | [] => [[c]]
      | g :: gs => (c :: g) :: gs

/-- `String.split` over the character-list model. -/
def strSplit (s : String) (p : Char → Bool) : List String :=
  (splitChars p s.data).map (fun g => ⟨g⟩)

/-- `String.trim` over the character-list model: whitespace removed
from both ends. -/
def strTrim (s : String) : String :=
  ⟨((s.data.dropWhile Char.isWhitespace).reverse.dropWhile
      Char.isWhitespace).reverse⟩

/-- One step of the token classification of `parseKeywordInput`
(`home.tsx` lines 42-48): a token of the form `-x` (length > 1)
contributes an exclude term with the dash stripped, a lone `-` is
dropped, anything else is an include term. -/
def classifyToken (acc : List String × List String) (token : String) :
    List String × List String :=
  if "-".data.isPrefixOf token.data && token.length > 1 then
    (acc.1, acc.2 ++ [(⟨token.data.drop 1⟩ : String)])
  else if token != "-" then (acc.1 ++ [token], acc.2)
  else acc

/-- `parseKeywordInput` (`home.tsx` lines 29-51): whitespace
tokenization of the raw keyword string into
(includeKeywords, excludeKeywords). -/
def parseKeywordInput (input : Option String) : List String × List String :=
  match input with
  | none => ([], [])
  | some s =>
    if s.isEmpty then ([], [])
    else
      let tokens :=
        ((strSplit s (fun c => c.isWhitespace)).map strTrim).filter
          (fun t => !t.isEmpty)
      tokens.foldl classifyToken ([], [])

/-- Whether a year is a leap year (proleptic Gregorian, as the JS
`Date` arithmetic of the expansion loop uses). -/
def isLeap (y : Nat) : Bool :=
  y % 4 == 0 && (y % 100 != 0 || y % 400 == 0)

/-- Number of days in a month. -/
def daysInMonth (y m : Nat) : Nat :=
  if m == 2 then (if isLeap y then 29 else 28)
  else if m == 4 || m == 6 || m == 9 || m == 11 then 30
  else 31

/-- Serial day number (days since 0000-03-01 proleptic Gregorian) of a
calendar date; the model of the UTC timestamp `Date.parse` produces
for a `YYYY-MM-DD` string, at day granularity. -/
def toSerial (y m d : Nat) : Nat :=
  let yShifted := if m ≤ 2 then y - 1 else y
  let mShifted := if m ≤ 2 then m + 9 else m - 3
  let dayOfYear := (153 * mShifted + 2) / 5 + (d - 1)
  365 * yShifted + yShifted / 4 - yShifted / 100 + yShifted / 400 + dayOfYear

/-- Calendar date `(year, month, day)` of a serial day number (inverse
of `toSerial` on valid dates). -/
def fromSerial (z : Nat) : Nat × Nat × Nat :=
  let era := z / 146097
  let dayOfEra := z % 146097
  let yearOfEra :=
    (dayOfEra - dayOfEra / 1460 + dayOfEra / 36524 - dayOfEra / 146096) / 365
  let y1 := yearOfEra + era * 400
  let dayOfYear := dayOfEra - (365 * yearOfEra + yearOfEra / 4 - yearOfEra / 100)
  let mShifted := (5 * dayOfYear + 2) / 153
  let d := dayOfYear - (153 * mShifted + 2) / 5 + 1
  let m := if mShifted < 10 then mShifted + 3 else mShifted - 9
  (if m ≤ 2 then y1 + 1 else y1, m, d)

/-- Left-pad a numeral with zeros to the given width. -/
def padZeros (width n : Nat) : String :=
  let s := toString n
  String.mk (List.replicate (width - s.length) '0') ++ s

/-- The 8-digit `YYYYMMDD` token of a serial day number — the model of
the ISO date part of `toISOString` with the dashes removed
(`home.tsx` line 116). -/
def tokenOfSerial (z : Nat) : String :=
  match fromSerial z with
  | (y, m, d) => padZeros 4 y ++ padZeros 2 m ++ padZeros 2 d

/-- Parse run of decimal digits (non-empty, digits only). -/
def parseNatDigits (cs : List Char) : Option Nat :=
  if cs.isEmpty then none
  else
    cs.foldl
      (fun acc c =>
        match acc with
        | none => none
        | some n => if c.isDigit then some (n * 10 + (c.toNat - 48)) else none)
      (some 0)

/-- Model of `Date.parse` on the `YYYY-MM-DD` strings a date input
submits: `some` serial day number for a valid calendar date, `none`
for empty or malformed input (JS `NaN`). -/
def parseDate (s : String) : Option Nat :=
  match strSplit s (fun c => c == '-') with
  | [ys, ms, ds] =>
    match parseNatDigits ys.data, parseNatDigits ms.data, parseNatDigits ds.data with
    | some y, some m, some d =>
      if ys.length == 4 && ms.length == 2 && ds.length == 2 &&
          1 ≤ y && 1 ≤ m && m ≤ 12 && 1 ≤ d && d ≤ daysInMonth y m then
        some (toSerial y m d)
      else none
    | _, _, _ => none
  | _ => none

/-- The date expansion loop with explicit fuel; `expandLoop` below
supplies exactly the fuel the loop consumes, so the two together model
`while (cursor <= endDate) { push token; cursor += 1 day }`
(`home.tsx` lines 112-119) as a structurally terminating function. -/
def expandLoopFuel : Nat → Nat → Nat → List String
  | 0, _, _ => []
  | fuel + 1, cursor, endSerial =>
    if cursor ≤ endSerial then
      tokenOfSerial cursor :: expandLoopFuel fuel (cursor + 1) endSerial
    else []

/-- The date expansion loop (`home.tsx` lines 112-119). -/
def expandLoop (cursor endSerial : Nat) : List String :=
  expandLoopFuel (endSerial + 1 - cursor) cursor endSerial

/-- The full date-token derivation of the action (`home.tsx` lines
87-119): parse the start (null on failure), default the end to the
start when the end is absent or unparseable, then run the expansion
loop when both ends are dates. -/
def deriveDates (startDateValue endDateValue : Option String) : List String :=
  let startParsed := startDateValue.bind parseDate
  let endParsed :=
    match endDateValue.bind parseDate with
    | some e => some e
    | none => startParsed
  match startParsed, endParsed with
  | some s, some e => expandLoop s e
  | _, _ => []

/-- The echoed `formValues.prefectures` default (`home.tsx` lines
105-108): the raw selection when non-empty, otherwise `["tokyo"]`. -/
def defaultedPrefectures (prefectures : List String) : List String :=
  if prefectures.isEmpty then ["tokyo"] else prefectures

/-- The outbound query parameters (`home.tsx` lines 121-137) as an
ordered multimap: fixed `count=100`, one space-joined `keyword` when
include terms exist, one `ymd` per date token, one `prefecture` per
raw selected region.  The exclude keywords are not an input: the
source builds `params` from `includeKeywords`, `dates` and
`prefectures` only. -/
def buildParams (includeKeywords dates prefectures : List String) :
    List (String × String) :=
  [("count", "100")] ++
  (if includeKeywords.isEmpty then []
   else [("keyword", String.intercalate " " includeKeywords)]) ++
  (if dates.isEmpty then [] else dates.map (fun date => ("ymd", date))) ++
  (if prefectures.isEmpty then []
   else prefectures.map (fun prefecture => ("prefecture", prefecture)))

/-- The outbound parameters as claim C4 describes them: built over the
defaulted region set.  Modelled from the claim's words, for comparison
with `buildParams`, which the source builds from the raw selection. -/
def buildParamsClaimedC4 (includeKeywords dates prefectures : List String) :
    List (String × String) :=
  buildParams includeKeywords dates (defaultedPrefectures prefectures)

/-- The baseline-eligibility predicate as claim C1 words it: capacity
must be unset or strictly greater than 10.  Modelled from the claim's
words, for comparison with `passesBaseConditions`. -/
def baselineClaimedC1 (event : EventListItem) : Bool :=
  event.open_status == "preopen" &&
  strTruthy event.place &&
  !(testAny venuePatterns (event.place.getD "")) &&
  (match event.limit with
   | none => true
   | some n => decide (10 < n)) &&
  !(testAny titlePatterns (event.title.getD ""))

/-- Net effect of the in-place sanitization pass
(`filteredEvents.forEach`, `home.tsx` lines 187-189) on an arbitrary
fetched record: the records of `filteredEvents` alias the records of
`events`, so exactly the records passing the full filter are
mutated. -/
def applyDescriptionStrip (includeKeywords excludeKeywords : List String)
    (event : EventListItem) : EventListItem :=
  if passFilter includeKeywords excludeKeywords event then
    { event with description := some (stripHtmlTags event.description) }
  else event

/-- `ResultSorter` (`home.tsx` lines 192-194): sort by parsed start
timestamp ascending.  `Array.prototype.sort` is stable (ES2019), so a
stable merge sort is the model. -/
def sortEvents (events : List EventListItem) : List EventListItem :=
  events.mergeSort (fun a b => decide (a.started_at ≤ b.started_at))

/-- The successful pipeline over a fetched list: filter, sanitize the
survivors, sort chronologically (`home.tsx` lines 156-194). -/
def pipelineEvents (includeKeywords excludeKeywords : List String)
    (events : List EventListItem) : List EventListItem :=
  sortEvents
    ((events.filter (passFilter includeKeywords excludeKeywords)).map
      (fun event =>
        { event with description := some (stripHtmlTags event.description) }))

/-- The echoed form values (`EventSearchFormData` in
`EventSearch.tsx`). -/
structure EventSearchFormData where
  keyword : String
  startDate : String
  endDate : String
  prefectures : List String
deriving DecidableEq

/-- The action's renderable payload (`ActionResponse` in
`home.tsx`). -/
structure ActionResponse where
  events : List EventListItem
  formValues : EventSearchFormData
  errorMessage : Option String
deriving DecidableEq

/-- The uniform user-facing failure message (`home.tsx` line 203). -/
def fetchErrorText : String :=
  "Connpass APIの取得に失敗しました。しばらく待って再度お試しください。"

/-- Outcome of the remote fetch: a parsed JSON body whose `events`
field may be absent, or one of the three failure modes the `try` block
can hit (non-ok status throw, network throw, `response.json()`
throw). -/
inductive FetchOutcome where
  | success (body : Option (List EventListItem))
  | httpError
  | networkError
  | parseError
deriving DecidableEq

/-- The request/response cycle of the action (`home.tsx` lines
139-206) after form parsing, as a function of the fetch outcome: on
success the filtered/sanitized/sorted list, on any failure the single
catch-block payload. -/
def runAction (formValues : EventSearchFormData)
    (includeKeywords excludeKeywords : List String)
    (outcome : FetchOutcome) : ActionResponse :=
  match outcome with
  | .success body =>
    { events := pipelineEvents includeKeywords excludeKeywords (body.getD []),
      formValues := formValues, errorMessage := none }
  | .httpError =>
    { events := [], formValues := formValues,
      errorMessage := some fetchErrorText }
  | .networkError =>
    { events := [], formValues := formValues,
      errorMessage := some fetchErrorText }
  | .parseError =>
    { events := [], formValues := formValues,
      errorMessage := some fetchErrorText }

/-- `geoEvents` from `Map.tsx` lines 77-88: the plotted subset — the
records whose `lat` and `lon` both convert to finite numbers.  The
source pushes a copy `{ ...event, lat, lon }` whose coordinates equal
the originals' numeric values, so in this model the copy is the record
itself. -/
def geoEvents (events : List EventListItem) : List EventListItem :=
  events.filter (fun event => event.lat.isSome && event.lon.isSome)

/-- The ids of the article cards `EventList` renders
(`EventList.tsx`, `events.map` over the full list): one card per
received record. -/
def renderedEventIds (events : List EventListItem) : List Nat :=
  events.map (fun event => event.id)

/-- Lexicographic comparison of character lists — the JS `<` on
strings (code-unit order; the date strings compared here are ASCII,
where code-unit order and code-point order agree). -/
def charsLt : List Char → List Char → Bool
  | [], [] => false
  | [], _ :: _ => true
  | _ :: _, [] => false
  | a :: as, b :: bs => decide (a < b) || (a == b && charsLt as bs)

/-- JS string comparison `a < b` as the form's date handlers use it. -/
def jsStrLt (a b : String) : Bool :=
  charsLt a.data b.data

/-- The two date fields of the search form (`EventSearch.tsx`). -/
structure DateRangeFields where
  startDate : String
  endDate : String
deriving DecidableEq

/-- `handleStartDateChange` (`EventSearch.tsx` lines 115-121): if the
edited start exceeds the current end, both fields become the edited
value; the start is set in every case. -/
def handleStartDateChange (fields : DateRangeFields) (value : String) :
    DateRangeFields :=
  if jsStrLt fields.endDate value then { startDate := value, endDate := value }
  else { fields with startDate := value }

/-- `handleEndDateChange` (`EventSearch.tsx` lines 122-128): if the
edited end precedes the current start, both fields become the edited
value; the end is set in every case. -/
def handleEndDateChange (fields : DateRangeFields) (value : String) :
    DateRangeFields :=
  if jsStrLt value fields.startDate then { startDate := value, endDate := value }
  else { fields with endDate := value }

/-- Concrete record: Go conference in Osaka (the spec's C2 example). -/
def exGoOsaka : EventListItem :=
  { id := 2, title := some "Go Conference 2024",
    description := some "<p>Community</p>", place := some "大阪会館",
    address := some "Osaka City", limit := some 50,
    open_status := "preopen", started_at := 100, lat := some 34,
    lon := some 135 }

/-- Concrete record: capacity field 0 — JS treats the number 0 as
falsy, so the baseline capacity check passes. -/
def exLimitZero : EventListItem :=
  { id := 1, title := some "Tech Meetup", description := none,
    place := some "渋谷", address := some "東京都渋谷区",
    limit := some 0, open_status := "preopen", started_at := 0,
    lat := none, lon := none }

/-- Concrete record: passes baseline eligibility but contains no
occurrence of the keyword "go"; its description holds markup. -/
def exRails : EventListItem :=
  { id := 3, title := some "Rails Workshop",
    description := some "<b>bold</b> text", place := some "名古屋",
    address := some "Aichi", limit := none, open_status := "preopen",
    started_at := 50, lat := none, lon := none }


/-! ## Helper lemmas -/

theorem charsLt_irrefl (l : List Char) : charsLt l l = false := by
  induction l with
  | nil => rfl
  | cons a as ih => simp [charsLt, ih, lt_irrefl]

theorem jsStrLt_irrefl (s : String) : jsStrLt s s = false :=
  charsLt_irrefl s.data

/-! ## Claims -/

/-- C10: after any single edit through `handleStartDateChange` or
`handleEndDateChange`, the end date never precedes the start date;
editing the start past the current end, or the end before the current
start, leaves both fields equal to the edited value. -/
theorem handleDateChange_never_inverted (fields : DateRangeFields)
    (value : String) :
    jsStrLt (handleStartDateChange fields value).endDate
      (handleStartDateChange fields value).startDate = false ∧
    jsStrLt (handleEndDateChange fields value).endDate
      (handleEndDateChange fields value).startDate = false ∧
    (jsStrLt fields.endDate value = true →
      handleStartDateChange fields value = ⟨value, value⟩) ∧
    (jsStrLt value fields.startDate = true →
      handleEndDateChange fields value = ⟨value, value⟩) := by
  refine ⟨?_, ?_, ?_, ?_⟩
  · unfold handleStartDateChange
    split
    · exact jsStrLt_irrefl value
    · simp only [Bool.not_eq_true] at *
      assumption
  · unfold handleEndDateChange
    split
    · exact jsStrLt_irrefl value
    · simp only [Bool.not_eq_true] at *
      assumption
  · intro h
    unfold handleStartDateChange
    split
    · rfl
    · exact absurd h (by assumption)
  · intro h
    unfold handleEndDateChange
    split
    · rfl
    · exact absurd h (by assumption)

theorem handleDateChange_never_inverted_witness :
    handleStartDateChange ⟨"2024-05-01", "2024-01-01"⟩ "2024-03-01" =
      ⟨"2024-03-01", "2024-03-01"⟩ ∧
    handleEndDateChange ⟨"2024-05-01", "2024-01-01"⟩ "2024-03-01" =
      ⟨"2024-03-01", "2024-03-01"⟩ :=
  ⟨(handleDateChange_never_inverted ⟨"2024-05-01", "2024-01-01"⟩
      "2024-03-01").2.2.1 (by decide),
   (handleDateChange_never_inverted ⟨"2024-05-01", "2024-01-01"⟩
      "2024-03-01").2.2.2 (by decide)⟩

/-- C7: every remote-fetch failure mode — non-success HTTP status,
network error, unparseable JSON body — yields one and the same
renderable payload: an empty events list, the echoed form values, and
the single uniform error message. -/
theorem runAction_failure_uniform (formValues : EventSearchFormData)
    (includeKeywords excludeKeywords : List String) (outcome : FetchOutcome)
    (h : outcome = .httpError ∨ outcome = .networkError ∨
      outcome = .parseError) :
    runAction formValues includeKeywords excludeKeywords outcome =
      { events := [], formValues := formValues,
        errorMessage := some fetchErrorText } := by
  rcases h with h | h | h <;> subst h <;> rfl

theorem runAction_failure_uniform_witness :
    runAction ⟨"", "", "", ["tokyo"]⟩ [] [] .networkError =
      { events := [], formValues := ⟨"", "", "", ["tokyo"]⟩,
        errorMessage := some fetchErrorText } :=
  runAction_failure_uniform ⟨"", "", "", ["tokyo"]⟩ [] [] .networkError
    (Or.inr (Or.inl rfl))

/-- C9: the map's plotted set is exactly the received records whose
latitude and longitude are both finite numbers, and the list renders a
card for every received record. -/
theorem geoEvents_plotted_iff (events : List EventListItem) :
    (∀ event, event ∈ geoEvents events ↔
      (event ∈ events ∧ event.lat.isSome = true ∧
        event.lon.isSome = true)) ∧
    (∀ event, event ∈ events → event.id ∈ renderedEventIds events) := by
  constructor
  · intro event
    simp [geoEvents, List.mem_filter, and_assoc]
  · intro event h
    exact List.mem_map_of_mem _ h

theorem geoEvents_plotted_iff_witness :
    (exRails ∈ geoEvents [exGoOsaka, exRails] ↔
      (exRails ∈ [exGoOsaka, exRails] ∧ exRails.lat.isSome = true ∧
        exRails.lon.isSome = true)) ∧
    exRails.id ∈ renderedEventIds [exGoOsaka, exRails] :=
  ⟨(geoEvents_plotted_iff [exGoOsaka, exRails]).1 exRails,
   (geoEvents_plotted_iff [exGoOsaka, exRails]).2 exRails (by decide)⟩

/-- C1 counterexample: a record whose capacity field holds the number
0 passes the baseline filter (JS `!event.limit` is true for 0), while
the claim's condition "capacity unset or strictly greater than 10"
rejects it. -/
theorem passesBaseConditions_capacity_zero :
    passesBaseConditions exLimitZero = true ∧
    baselineClaimedC1 exLimitZero = false := by decide

/-- C1 (amended): baseline eligibility accepts iff the status is
pre-open, the venue is present and matches no venue-denylist entry,
the capacity is unset, zero, or strictly greater than 10, and the
title matches no title-denylist entry; capacity exactly 10 is always
rejected and capacity 11 behaves like an unset capacity. -/
theorem passesBaseConditions_characterization (event : EventListItem) :
    (passesBaseConditions event = true ↔
      (event.open_status = "preopen" ∧
       strTruthy event.place = true ∧
       testAny venuePatterns (event.place.getD "") = false ∧
       (event.limit = none ∨ event.limit = some 0 ∨
         ∃ n, event.limit = some n ∧ 10 < n) ∧
       testAny titlePatterns (event.title.getD "") = false)) ∧
    passesBaseConditions { event with limit := some 10 } = false ∧
    (passesBaseConditions { event with limit := some 11 } =
      passesBaseConditions { event with limit := none }) := by
  have hlimit : limitPasses event.limit = true ↔
      (event.limit = none ∨ event.limit = some 0 ∨
        ∃ n, event.limit = some n ∧ 10 < n) := by
    cases h : event.limit with
    | none => simp [limitPasses]
    | some n =>
      simp only [limitPasses, Bool.or_eq_true, beq_iff_eq,
        decide_eq_true_eq, Option.some.injEq, reduceCtorEq, false_or]
      constructor
      · rintro (rfl | h10)
        · exact Or.inl rfl
        · exact Or.inr ⟨n, rfl, h10⟩
      · rintro (rfl | ⟨m, rfl, h10⟩)
        · exact Or.inl rfl
        · exact Or.inr h10
  refine ⟨?_, ?_, ?_⟩
  · simp [passesBaseConditions, Bool.and_eq_true, beq_iff_eq,
      Bool.not_eq_true', hlimit, and_assoc]
  · simp [passesBaseConditions, limitPasses]
  · simp [passesBaseConditions, limitPasses]

/-- C5 counterexample: `exRails` survives baseline eligibility but is
rejected by keyword matching for include term "go"; the sanitization
pass leaves it untouched, so its description keeps its markup —
against the claim that every baseline survivor is sanitized regardless
of the keyword outcome. -/
theorem applyDescriptionStrip_skips_keyword_rejected :
    passesBaseConditions exRails = true ∧
    passFilter ["go"] [] exRails = false ∧
    applyDescriptionStrip ["go"] [] exRails = exRails ∧
    exRails.description ≠ some (stripHtmlTags exRails.description) := by
  decide

/-- C5 (amended): the in-place description sanitization applies to
exactly the records that pass the full filter (baseline eligibility
and keyword matching); a record rejected at either step is left
unmodified. -/
theorem applyDescriptionStrip_iff_full_filter
    (includeKeywords excludeKeywords : List String) (event : EventListItem) :
    (passFilter includeKeywords excludeKeywords event = true →
      applyDescriptionStrip includeKeywords excludeKeywords event =
        { event with
            description := some (stripHtmlTags event.description) }) ∧
    (passFilter includeKeywords excludeKeywords event = false →
      applyDescriptionStrip includeKeywords excludeKeywords event =
        event) := by
  constructor <;> intro h <;> simp [applyDescriptionStrip, h]

theorem applyDescriptionStrip_iff_full_filter_witness :
    applyDescriptionStrip ["go"] ["tokyo"] exGoOsaka =
      { exGoOsaka with
          description := some (stripHtmlTags exGoOsaka.description) } ∧
    applyDescriptionStrip ["rust"] [] exRails = exRails :=
  ⟨(applyDescriptionStrip_iff_full_filter ["go"] ["tokyo"] exGoOsaka).1
      (by decide),
   (applyDescriptionStrip_iff_full_filter ["rust"] [] exRails).2
      (by decide)⟩

/-- C6: the outbound parameter set always carries `count=100`; carries
one space-joined `keyword` parameter exactly when the include-term
list is non-empty; carries one `ymd` per date token and one
`prefecture` per selected region code, each family omitted when its
source list is empty; and every parameter belongs to one of these four
families (exclude terms are never sent — `buildParams`, like the
source, is not even a function of them). -/
theorem buildParams_characterization
    (includeKeywords dates prefectures : List String) :
    ((buildParams includeKeywords dates prefectures).filter
        (fun kv => kv.1 == "count")).map Prod.snd = ["100"] ∧
    ((buildParams includeKeywords dates prefectures).filter
        (fun kv => kv.1 == "keyword")).map Prod.snd =
      (if includeKeywords.isEmpty then []
       else [String.intercalate " " includeKeywords]) ∧
    ((buildParams includeKeywords dates prefectures).filter
        (fun kv => kv.1 == "ymd")).map Prod.snd = dates ∧
    ((buildParams includeKeywords dates prefectures).filter
        (fun kv => kv.1 == "prefecture")).map Prod.snd = prefectures ∧
    (∀ kv ∈ buildParams includeKeywords dates prefectures,
      kv.1 = "count" ∨ kv.1 = "keyword" ∨ kv.1 = "ymd" ∨
        kv.1 = "prefecture") := by
  refine ⟨?_, ?_, ?_, ?_, ?_⟩
  · simp only [buildParams, List.filter_append, List.map_append]
    by_cases hk : includeKeywords.isEmpty <;>
      by_cases hd : dates.isEmpty <;>
        by_cases hp : prefectures.isEmpty <;>
          simp [hk, hd, hp, List.filter_map, Function.comp,
            List.isEmpty_iff.mp]
  · simp only [buildParams, List.filter_append, List.map_append]
    by_cases hk : includeKeywords.isEmpty <;>
      by_cases hd : dates.isEmpty <;>
        by_cases hp : prefectures.isEmpty <;>
          simp [hk, hd, hp, List.filter_map, Function.comp,
            List.isEmpty_iff.mp]
  · simp only [buildParams, List.filter_append, List.map_append]
    by_cases hk : includeKeywords.isEmpty <;>
      by_cases hd : dates.isEmpty <;>
        by_cases hp : prefectures.isEmpty <;>
          simp [hk, hd, hp, List.filter_map, Function.comp,
            List.isEmpty_iff.mp]
  · simp only [buildParams, List.filter_append, List.map_append]
    by_cases hk : includeKeywords.isEmpty <;>
      by_cases hd : dates.isEmpty <;>
        by_cases hp : prefectures.isEmpty <;>
          simp [hk, hd, hp, List.filter_map, Function.comp,
            List.isEmpty_iff.mp]
  · intro kv hkv
    simp only [buildParams, List.mem_append] at hkv
    rcases hkv with ((h | h) | h) | h
    · simp only [List.mem_singleton] at h
      subst h
      exact Or.inl rfl
    · split at h
      · simp at h
      · simp only [List.mem_singleton] at h
        subst h
        exact Or.inr (Or.inl rfl)
    · split at h
      · simp at h
      · simp only [List.mem_map] at h
        obtain ⟨d, _, rfl⟩ := h
        exact Or.inr (Or.inr (Or.inl rfl))
    · split at h
      · simp at h
      · simp only [List.mem_map] at h
        obtain ⟨p, _, rfl⟩ := h
        exact Or.inr (Or.inr (Or.inr rfl))

theorem buildParams_characterization_witness :
    ((buildParams ["rust"] ["20240130"] ["tokyo"]).filter
        (fun kv => kv.1 == "ymd")).map Prod.snd = ["20240130"] ∧
    (("count", "100").1 = "count" ∨ ("count", "100").1 = "keyword" ∨
      ("count", "100").1 = "ymd" ∨ ("count", "100").1 = "prefecture") :=
  ⟨(buildParams_characterization ["rust"] ["20240130"] ["tokyo"]).2.2.1,
   (buildParams_characterization ["rust"] ["20240130"] ["tokyo"]).2.2.2.2
     ("count", "100") (by decide)⟩

/-- C4 counterexample: for a submission with no prefecture selected,
the echoed form values carry the default region `tokyo`, but the
outbound query the code builds contains no `prefecture` parameter at
all — against the claim that the outbound query carries the default
region (`buildParamsClaimedC4` is what the claim describes). -/
theorem params_omit_default_prefecture :
    defaultedPrefectures [] = ["tokyo"] ∧
    (buildParams [] [] []).filter (fun kv => kv.1 == "prefecture") = [] ∧
    ((buildParamsClaimedC4 [] [] []).filter
        (fun kv => kv.1 == "prefecture")).map Prod.snd = ["tokyo"] := by
  decide

/-- C4 (amended): when no prefecture is selected, only the echoed form
values assume the single default region `tokyo`; the outbound query
omits the `prefecture` parameter family entirely.  When at least one
prefecture is selected, both the echo and the query carry exactly the
selected regions. -/
theorem defaulted_prefectures_echo_only
    (includeKeywords dates prefectures : List String) :
    (prefectures = [] →
      defaultedPrefectures prefectures = ["tokyo"] ∧
      (buildParams includeKeywords dates prefectures).filter
        (fun kv => kv.1 == "prefecture") = []) ∧
    (prefectures ≠ [] →
      defaultedPrefectures prefectures = prefectures ∧
      ((buildParams includeKeywords dates prefectures).filter
          (fun kv => kv.1 == "prefecture")).map Prod.snd = prefectures) := by
  constructor
  · rintro rfl
    refine ⟨rfl, ?_⟩
    simp only [buildParams, List.filter_append]
    by_cases hk : includeKeywords.isEmpty <;>
      by_cases hd : dates.isEmpty <;>
        simp [hk, hd, List.filter_map, Function.comp]
  · intro h
    refine ⟨?_, ?_⟩
    · simp [defaultedPrefectures, h]
    · simp only [buildParams, List.filter_append, List.map_append]
      by_cases hk : includeKeywords.isEmpty <;>
        by_cases hd : dates.isEmpty <;>
          by_cases hp : prefectures.isEmpty <;>
            simp [hk, hd, hp, List.filter_map, Function.comp,
              List.isEmpty_iff.mp]

theorem defaulted_prefectures_echo_only_witness :
    (defaultedPrefectures [] = ["tokyo"] ∧
      (buildParams ["rust"] ["20240130"] []).filter
        (fun kv => kv.1 == "prefecture") = []) ∧
    (defaultedPrefectures ["chiba"] = ["chiba"] ∧
      ((buildParams ["rust"] ["20240130"] ["chiba"]).filter
          (fun kv => kv.1 == "prefecture")).map Prod.snd = ["chiba"]) :=
  ⟨(defaulted_prefectures_echo_only ["rust"] ["20240130"] []).1 rfl,
   (defaulted_prefectures_echo_only ["rust"] ["20240130"] ["chiba"]).2
     (by decide)⟩

/-- C2: for a record that passed baseline eligibility, keyword
matching passes when both term lists are empty, and otherwise passes
iff every include term occurs (case-insensitively) in the searchable
text and no exclude term does. -/
theorem keywordStepPasses_characterization
    (includeKeywords excludeKeywords : List String) (e : EventListItem)
    (_hbase : passesBaseConditions e = true) :
    (includeKeywords = [] ∧ excludeKeywords = [] →
      keywordStepPasses (includeKeywords.map strToLower)
        (excludeKeywords.map strToLower) e = true) ∧
    (keywordStepPasses (includeKeywords.map strToLower)
        (excludeKeywords.map strToLower) e = true ↔
      ((∀ k ∈ includeKeywords,
          strIncludes (buildSearchableText e) (strToLower k) = true) ∧
       (∀ k ∈ excludeKeywords,
          strIncludes (buildSearchableText e) (strToLower k) = false))) := by
  constructor
  · rintro ⟨rfl, rfl⟩
    rfl
  · unfold keywordStepPasses
    by_cases hI : includeKeywords = [] <;>
      by_cases hE : excludeKeywords = [] <;>
        simp [hI, hE, List.all_eq_true, List.isEmpty_iff,
          List.map_eq_nil_iff]

theorem keywordStepPasses_characterization_witness :
    passesBaseConditions exGoOsaka = true ∧
    keywordStepPasses (["go"].map strToLower) (["tokyo"].map strToLower)
      exGoOsaka = true :=
  ⟨by decide,
   (keywordStepPasses_characterization ["go"] ["tokyo"] exGoOsaka
       (by decide)).2.mpr (by decide)⟩

/-- The fuel `expandLoop` supplies always suffices: the loop equals
the ascending range of serial days rendered as tokens. -/
theorem expandLoopFuel_eq (fuel : Nat) :
    ∀ cursor endSerial : Nat, endSerial + 1 - cursor ≤ fuel →
      expandLoopFuel fuel cursor endSerial =
        (List.range (endSerial + 1 - cursor)).map
          (fun i => tokenOfSerial (cursor + i)) := by
  induction fuel with
  | zero =>
    intro cursor endSerial h
    have h0 : endSerial + 1 - cursor = 0 := Nat.le_zero.mp h
    simp [expandLoopFuel, h0]
  | succ fuel ih =>
    intro cursor endSerial h
    by_cases hc : cursor ≤ endSerial
    · have hn : endSerial + 1 - cursor = (endSerial + 1 - (cursor + 1)) + 1 := by
        omega
      rw [expandLoopFuel, if_pos hc, ih (cursor + 1) endSerial (by omega), hn,
        List.range_succ_eq_map]
      simp only [List.map_cons, List.map_map, Nat.add_zero]
      refine congrArg _ ?_
      refine List.map_congr_left ?_
      intro i _
      simp only [Function.comp]
      refine congrArg _ ?_
      omega
    · have h0 : endSerial + 1 - cursor = 0 := by omega
      rw [expandLoopFuel, if_neg hc, h0]
      simp

theorem expandLoop_eq (cursor endSerial : Nat) :
    expandLoop cursor endSerial =
      (List.range (endSerial + 1 - cursor)).map
        (fun i => tokenOfSerial (cursor + i)) :=
  expandLoopFuel_eq _ cursor endSerial (Nat.le_refl _)

/-- C3: the date-token derivation returns the empty list when the
start is absent or unparseable; otherwise, with the end defaulting to
the start when absent or unparseable, it terminates with every
calendar day from start to end inclusive as an ascending 8-digit
token list — empty whenever the valid start is strictly after the
valid end. -/
theorem deriveDates_spec (startDateValue endDateValue : Option String) :
    (startDateValue.bind parseDate = none →
      deriveDates startDateValue endDateValue = []) ∧
    (∀ s, startDateValue.bind parseDate = some s →
      (s ≤ (endDateValue.bind parseDate).getD s →
        deriveDates startDateValue endDateValue =
          (List.range ((endDateValue.bind parseDate).getD s + 1 - s)).map
            (fun i => tokenOfSerial (s + i))) ∧
      ((endDateValue.bind parseDate).getD s < s →
        deriveDates startDateValue endDateValue = [])) := by
  constructor
  · intro h
    cases he : endDateValue.bind parseDate <;> simp [deriveDates, h, he]
  · intro s hs
    cases he : endDateValue.bind parseDate with
    | none =>
      refine ⟨fun _ => ?_, fun hlt => absurd hlt (by simp)⟩
      simp only [deriveDates, hs, he, Option.getD_none]
      rw [expandLoop_eq]
    | some e =>
      refine ⟨fun _ => ?_, fun hlt => ?_⟩
      · simp only [deriveDates, hs, he, Option.getD_some]
        rw [expandLoop_eq]
      · simp only [deriveDates, hs, he, Option.getD_some] at hlt ⊢
        rw [expandLoop_eq]
        have h0 : e + 1 - s = 0 := by omega
        simp [h0]

theorem deriveDates_spec_witness :
    deriveDates (some "2024-01-30") (some "2024-02-01") =
      ["20240130", "20240131", "20240201"] ∧
    (some "2024-01-30").bind parseDate = some 739220 := by
  constructor
  · have h := ((deriveDates_spec (some "2024-01-30")
        (some "2024-02-01")).2 739220 (by decide)).1 (by decide)
    exact h.trans (by decide)
  · decide

/-- C8: the result sorter orders the surviving records by start
timestamp ascending, permutes them (drops or duplicates nothing), and
is stable: for every start timestamp, the records carrying it appear
in the output in their input order. -/
theorem sortEvents_sorted_stable (events : List EventListItem) :
    (sortEvents events).Pairwise
      (fun a b => a.started_at ≤ b.started_at) ∧
    List.Perm (sortEvents events) events ∧
    ∀ t : Int,
      (sortEvents events).filter (fun e => e.started_at == t) =
        events.filter (fun e => e.started_at == t) := by
  have htrans : ∀ a b c : EventListItem,
      (decide (a.started_at ≤ b.started_at)) = true →
      (decide (b.started_at ≤ c.started_at)) = true →
      (decide (a.started_at ≤ c.started_at)) = true := by
    intro a b c hab hbc
    simp only [decide_eq_true_eq] at *
    exact le_trans hab hbc
  have htotal : ∀ a b : EventListItem,
      (decide (a.started_at ≤ b.started_at) ||
        decide (b.started_at ≤ a.started_at)) = true := by
    intro a b
    simp only [Bool.or_eq_true, decide_eq_true_eq]
    exact le_total a.started_at b.started_at
  refine ⟨?_, ?_, ?_⟩
  · have h := List.sorted_mergeSort htrans htotal events
    exact h.imp (fun hab => of_decide_eq_true hab)
  · exact List.mergeSort_perm events _
  · intro t
    have hmem : ∀ e ∈ events.filter (fun e => e.started_at == t),
        (fun e => e.started_at == t) e = true :=
      fun e he => (List.mem_filter.mp he).2
    have hpair : (events.filter (fun e => e.started_at == t)).Pairwise
        (fun a b => decide (a.started_at ≤ b.started_at) = true) := by
      refine List.pairwise_of_forall_mem_list ?_
      intro a ha b hb
      have ha' : a.started_at = t := by
        have := (List.mem_filter.mp ha).2
        simpa using this
      have hb' : b.started_at = t := by
        have := (List.mem_filter.mp hb).2
        simpa using this
      simp [ha', hb']
    have hsub : List.Sublist (events.filter (fun e => e.started_at == t))
        events := List.filter_sublist events
    have h1 : List.Sublist (events.filter (fun e => e.started_at == t))
        (sortEvents events) := by
      refine List.sublist_mergeSort htrans htotal ?_ hsub
      exact hpair
    have h2 : List.Sublist (events.filter (fun e => e.started_at == t))
        ((sortEvents events).filter (fun e => e.started_at == t)) := by
      have := h1.filter (fun e => e.started_at == t)
      rwa [List.filter_eq_self.mpr hmem] at this
    have hlen : ((sortEvents events).filter
        (fun e => e.started_at == t)).length =
        (events.filter (fun e => e.started_at == t)).length := by
      rw [← List.countP_eq_length_filter, ← List.countP_eq_length_filter]
      exact (List.mergeSort_perm events _).countP_eq _
    exact (h2.eq_of_length hlen.symm).symm
